import Mathlib

/-!
Verification of the blog CRUD core of the Pythonian/fastapi_web repository.

The embedding below follows the source files:
  * api/v1/models/blog.py        — the `Blog` row (SQLAlchemy model)
  * api/v1/schemas/blog.py       — request/response schemas (pydantic)
  * api/v1/services/blog.py      — `BlogService` static methods
  * api/v1/routes/blog.py        — the inline route-handler logic

The relational store is modelled as the list of rows in insertion order
together with the autoincrement counter.  Timestamps are natural numbers
(the wall clock is passed to every mutating operation as `now`, standing
for the server-side func.now()).  `query.filter(...).first()` becomes
`List.find?` over the rows in insertion order; `ORDER BY created_at DESC`
constrains the returned list only up to ties, which is captured by the
relation `isQueryResult` (any permutation of the active rows that is
non-increasing in `created_at`).
-/

/-- A persisted blog row, after api/v1/models/blog.py.  `created_at` and
`updated_at` are server-assigned timestamps; `is_deleted` defaults to
false and implements soft deletion. -/
structure Blog where
  id : Nat
  title : String
  excerpt : String
  content : String
  image_url : String
  is_deleted : Bool
  created_at : Nat
  updated_at : Nat
deriving DecidableEq, Repr

/-- The storage state: rows in insertion order plus the autoincrement
counter for the next primary key. -/
structure DB where
  rows : List Blog
  nextId : Nat
deriving DecidableEq, Repr

/-- The create-request schema (BlogCreate / BlogCreateSchema in
api/v1/schemas/blog.py).  The schema accepts an `is_deleted` flag
(defaulting to false); whether create honours it is claim C10. -/
structure BlogCreate where
  title : String
  excerpt : String
  content : String
  image_url : String
  is_deleted : Bool := false
deriving DecidableEq, Repr

/-- The partial-update schema (BlogUpdate / BlogUpdateSchema).  `none`
means the caller did not supply the field: `model_dump(exclude_unset := true)`
drops exactly those fields. -/
structure BlogUpdate where
  title : Option String := none
  excerpt : Option String := none
  content : Option String := none
  image_url : Option String := none
  is_deleted : Option Bool := none
deriving DecidableEq, Repr

/-- The full response schema (BlogResponse / BlogResponseSchema), which
inherits `is_deleted` (default false) from BlogBase. -/
structure BlogResponse where
  id : Nat
  title : String
  excerpt : String
  content : String
  image_url : String
  is_deleted : Bool
  created_at : Nat
  updated_at : Nat
deriving DecidableEq, Repr

/-- One item of the list response (BlogListItemResponse): the summary
projection omits `content` and `is_deleted`. -/
structure BlogListItemResponse where
  id : Nat
  title : String
  excerpt : String
  image_url : String
  created_at : Nat
deriving DecidableEq, Repr

/-- The paginated list response (BlogListResponse). -/
structure BlogListResponse where
  count : Nat
  next : Option String
  previous : Option String
  results : List BlogListItemResponse
deriving DecidableEq, Repr

/-- The failure classification of the service operations: HTTP 409
(duplicate title) and HTTP 404 (not found).  Storage failures are out of
scope of the embedded logic. -/
inductive Err where
  | duplicateTitle
  | notFound
deriving DecidableEq, Repr

/-- The explicit response construction used by the service layer and by
the route handlers for create/update: `is_deleted` is not passed, so the
schema default false is used. -/
def responseFor (b : Blog) : BlogResponse :=
  { id := b.id
    title := b.title
    excerpt := b.excerpt
    content := b.content
    image_url := b.image_url
    is_deleted := false
    created_at := b.created_at
    updated_at := b.updated_at }

/-- The summary projection used by the list operation. -/
def listItemFor (b : Blog) : BlogListItemResponse :=
  { id := b.id
    title := b.title
    excerpt := b.excerpt
    image_url := b.image_url
    created_at := b.created_at }

/-- db.query(Blog).filter(Blog.id == id, not_(Blog.is_deleted)).first() -/
def findActive (db : DB) (id : Nat) : Option Blog :=
  db.rows.find? (fun b => b.id == id && !b.is_deleted)

/-- db.query(Blog).filter(Blog.title == t).first() — note: no
is_deleted filter; this is the check used by create. -/
def findByTitle (db : DB) (t : String) : Option Blog :=
  db.rows.find? (fun b => b.title == t)

/-- db.query(Blog).filter(Blog.title == t, not_(Blog.is_deleted)).first()
— the check used by update's uniqueness re-validation. -/
def findActiveByTitle (db : DB) (t : String) : Option Blog :=
  db.rows.find? (fun b => b.title == t && !b.is_deleted)

/-- The non-deleted rows, in insertion order. -/
def activeRows (db : DB) : List Blog :=
  db.rows.filter (fun b => !b.is_deleted)

/-- What `ORDER BY created_at DESC` over the non-deleted rows guarantees
about the list the store hands back: it is a permutation of the active
rows that is non-increasing in `created_at`.  The engine chooses the
order of rows whose `created_at` collide; no secondary sort key appears
in the query. -/
def isQueryResult (db : DB) (l : List Blog) : Prop :=
  List.Perm l (activeRows db) ∧
    List.Pairwise (fun a b => b.created_at ≤ a.created_at) l

instance (db : DB) (l : List Blog) : Decidable (isQueryResult db l) := by
  unfold isQueryResult
  exact instDecidableAnd

/-- Overwrite the row holding primary key `id` (SQLAlchemy mutates the
mapped object in place, so the row keeps its position). -/
def writeRow (db : DB) (id : Nat) (b : Blog) : DB :=
  { db with rows := db.rows.map (fun r => if r.id == id then b else r) }

/-- The relative URL built for the next/previous cursors; both the
service and the route version interpolate into the literal
"/api/v1/blogs?page=...&page_size=...". -/
def pageUrl (page page_size : Nat) : String :=
  "/api/v1/blogs?page=" ++ Nat.repr page ++ "&page_size=" ++ Nat.repr page_size

/-- The update-time uniqueness guard, shared verbatim by the service
and the route handler: a 409 is raised when `title` is among the
supplied fields, differs from the current title, and some non-deleted
row already holds it. -/
def titleConflict (db : DB) (b : Blog) (u : BlogUpdate) : Bool :=
  match u.title with
  | some t => t != b.title && (findActiveByTitle db t).isSome
  | none => false

/-- The row inserted by create: Blog(title, excerpt, content, image_url)
— `is_deleted` is not passed, so the column default false applies, and
the primary key and timestamps are server-assigned. -/
def newBlogRow (db : DB) (blog : BlogCreate) (now : Nat) : Blog :=
  { id := db.nextId
    title := blog.title
    excerpt := blog.excerpt
    content := blog.content
    image_url := blog.image_url
    is_deleted := false
    created_at := now
    updated_at := now }

namespace BlogService

/-- BlogService.create_blog (api/v1/services/blog.py, lines 17-57):
duplicate check on title alone (no is_deleted filter), then insert a row
built without `is_deleted` (column default false) and with server
timestamps. -/
def create_blog (db : DB) (blog : BlogCreate) (now : Nat) :
    Except Err (DB × BlogResponse) :=
  match findByTitle db blog.title with
  | some _ => .error .duplicateTitle
  | none =>
    .ok ({ rows := db.rows ++ [newBlogRow db blog now], nextId := db.nextId + 1 },
         responseFor (newBlogRow db blog now))

/-- BlogService.list_blog (lines 59-110), applied to the list `l` the
store returned for the filtered/ordered query (see `isQueryResult`):
offset arithmetic, count, slice, and the two cursor URLs. -/
def list_blog (l : List Blog) (page page_size : Nat) : BlogListResponse :=
  let offset := (page - 1) * page_size
  let total_count := l.length
  let blogs := (l.drop offset).take page_size
  { count := total_count
    next := if offset + page_size < total_count
      then some (pageUrl (page + 1) page_size) else none
    previous := if page > 1 then some (pageUrl (page - 1) page_size) else none
    results := blogs.map listItemFor }

/-- BlogService.read_blog (lines 112-149). -/
def read_blog (db : DB) (id : Nat) : Except Err BlogResponse :=
  match findActive db id with
  | none => .error .notFound
  | some b => .ok (responseFor b)

/-- The merge step of update: setattr for every field present in
`model_dump(exclude_unset := true)`. -/
def applyUpdate (b : Blog) (u : BlogUpdate) : Blog :=
  { b with
    title := u.title.getD b.title
    excerpt := u.excerpt.getD b.excerpt
    content := u.content.getD b.content
    image_url := u.image_url.getD b.image_url
    is_deleted := u.is_deleted.getD b.is_deleted }

/-- The commit/refresh step: the column-level onupdate hook refreshes
`updated_at` exactly when the flush writes the row, i.e. when some
column value actually changed. -/
def commitRow (b merged : Blog) (now : Nat) : Blog :=
  if merged = b then merged else { merged with updated_at := now }

/-- BlogService.update_blog (lines 151-211): find the active row,
re-check title uniqueness (against active rows only) when a different
title is supplied, merge, commit, return the refreshed row. -/
def update_blog (db : DB) (id : Nat) (blog_update : BlogUpdate) (now : Nat) :
    Except Err (DB × BlogResponse) :=
  match findActive db id with
  | none => .error .notFound
  | some b =>
    if titleConflict db b blog_update then .error .duplicateTitle
    else
      .ok (writeRow db b.id (commitRow b (applyUpdate b blog_update) now),
           responseFor (commitRow b (applyUpdate b blog_update) now))

/-- BlogService.delete_blog (lines 213-240): find the active row, set
`is_deleted := true`, commit (the write refreshes `updated_at` via the
onupdate hook, since the row changed). -/
def delete_blog (db : DB) (id : Nat) (now : Nat) : Except Err DB :=
  match findActive db id with
  | none => .error .notFound
  | some b =>
    .ok (writeRow db b.id { b with is_deleted := true, updated_at := now })

end BlogService

namespace BlogRoutes

/-- The response the route-level read handler builds:
BlogResponseSchema.model_validate(blog.dict) copies every column of the
row, `is_deleted` included (api/v1/routes/blog.py, line 167). -/
def validatedResponseFor (b : Blog) : BlogResponse :=
  { id := b.id
    title := b.title
    excerpt := b.excerpt
    content := b.content
    image_url := b.image_url
    is_deleted := b.is_deleted
    created_at := b.created_at
    updated_at := b.updated_at }

/-- The inline POST /blogs handler (api/v1/routes/blog.py, lines 28-78):
same duplicate check on title alone, same insert, same explicit response
construction as the service. -/
def create_blog (db : DB) (blog : BlogCreate) (now : Nat) :
    Except Err (DB × BlogResponse) :=
  match findByTitle db blog.title with
  | some _ => .error .duplicateTitle
  | none =>
    .ok ({ rows := db.rows ++ [newBlogRow db blog now], nextId := db.nextId + 1 },
         responseFor (newBlogRow db blog now))

/-- The inline GET /blogs handler (lines 86-138), on the list the store
returned for the same filtered/ordered query. -/
def list_blog (l : List Blog) (page page_size : Nat) : BlogListResponse :=
  let offset := (page - 1) * page_size
  let total_count := l.length
  let blogs := (l.drop offset).take page_size
  { count := total_count
    next := if offset + page_size < total_count
      then some (pageUrl (page + 1) page_size) else none
    previous := if page > 1 then some (pageUrl (page - 1) page_size) else none
    results := blogs.map listItemFor }

/-- The inline GET /blogs/\x7bid\x7d handler (lines 146-180): the only
textual difference from the service is the model_validate response. -/
def read_blog (db : DB) (id : Nat) : Except Err BlogResponse :=
  match findActive db id with
  | none => .error .notFound
  | some b => .ok (validatedResponseFor b)

/-- The inline PATCH /blogs/\x7bid\x7d handler (lines 188-270): same find,
same conflict check, same merge loop and commit as the service. -/
def update_blog (db : DB) (id : Nat) (blog_update : BlogUpdate) (now : Nat) :
    Except Err (DB × BlogResponse) :=
  match findActive db id with
  | none => .error .notFound
  | some b =>
    if titleConflict db b blog_update then .error .duplicateTitle
    else
      .ok (writeRow db b.id
             (BlogService.commitRow b (BlogService.applyUpdate b blog_update) now),
           responseFor
             (BlogService.commitRow b (BlogService.applyUpdate b blog_update) now))

/-- The inline DELETE /blogs/\x7bid\x7d handler (lines 277-315).  Its 404
detail string differs from the service's message; the classification is
the same `notFound`. -/
def delete_blog (db : DB) (id : Nat) (now : Nat) : Except Err DB :=
  match findActive db id with
  | none => .error .notFound
  | some b =>
    .ok (writeRow db b.id { b with is_deleted := true, updated_at := now })

end BlogRoutes

/-- Well-formed storage: every primary key is below the autoincrement
counter and primary keys are pairwise distinct.  Both hold of the empty
database and are preserved by every operation. -/
def WF (db : DB) : Prop :=
  (∀ b ∈ db.rows, b.id < db.nextId) ∧ (db.rows.map Blog.id).Nodup

/-- One mutating request against the store.  `read` and `list` do not
change the state, so the three mutators generate every reachable
state. -/
instance (db : DB) : Decidable (WF db) := by
  unfold WF
  exact instDecidableAnd

inductive Step : DB → DB → Prop where
  | create (input : BlogCreate) (now : Nat) (db db' : DB) (r : BlogResponse) :
      BlogService.create_blog db input now = .ok (db', r) → Step db db'
  | update (id : Nat) (u : BlogUpdate) (now : Nat) (db db' : DB) (r : BlogResponse) :
      BlogService.update_blog db id u now = .ok (db', r) → Step db db'
  | delete (id : Nat) (now : Nat) (db db' : DB) :
      BlogService.delete_blog db id now = .ok db' → Step db db'

/-- Zero or more requests. -/
def Reachable : DB → DB → Prop := Relation.ReflTransGen Step

/-! ### Concrete fixtures used by witnesses and counterexamples -/

/-- A soft-deleted row whose title collides with a create request. -/
def ghostPost : Blog :=
  { id := 1, title := "Ten Char Title!!", excerpt := "Long enough excerpt.",
    content := "body", image_url := "img", is_deleted := true,
    created_at := 1, updated_at := 2 }

/-- A store whose only row is soft-deleted. -/
def dbGhost : DB := { rows := [ghostPost], nextId := 2 }

/-- A create request reusing the soft-deleted row's title. -/
def retryInput : BlogCreate :=
  { title := "Ten Char Title!!", excerpt := "Another fine excerpt",
    content := "body2", image_url := "img2" }

/-- Three concrete active posts; `postA` and `postB` collide on
`created_at` (whole-second resolution), `postC` is newer. -/
def postA : Blog :=
  { id := 1, title := "First Post Title", excerpt := "First excerpt text goes here",
    content := "c1", image_url := "u1", is_deleted := false,
    created_at := 5, updated_at := 5 }

/-- Second concrete post, sharing `created_at` with `postA`. -/
def postB : Blog :=
  { id := 2, title := "Second Post Title", excerpt := "Second excerpt text goes here",
    content := "c2", image_url := "u2", is_deleted := false,
    created_at := 5, updated_at := 5 }

/-- Third concrete post, newer than the other two. -/
def postC : Blog :=
  { id := 3, title := "Third Post Title", excerpt := "Third excerpt text goes here",
    content := "c3", image_url := "u3", is_deleted := false,
    created_at := 9, updated_at := 9 }

/-- A store holding the two timestamp-colliding posts. -/
def dbAB : DB := { rows := [postA, postB], nextId := 3 }

/-- A store holding all three posts. -/
def dbABC : DB := { rows := [postA, postB, postC], nextId := 4 }

/-- The cursor URL shape asserted by the claim (and by spec section 6):
a relative URL of the form /blogs?page=n&page_size=s. -/
def claimedUrlForm (s : String) : Prop :=
  ∃ n ps : Nat,
    s = "/blogs?page=" ++ Nat.repr n ++ "&page_size=" ++ Nat.repr ps

/-- The excerpt-only update request used as C6 witness input. -/
def updExcerpt : BlogUpdate := { excerpt := some "A completely new excerpt text" }

/-- An excerpt-only update request that supplies the value `postA`
already stores: the merge produces no net change, so the flush emits no
UPDATE and the onupdate hook never fires. -/
def updSameExcerpt : BlogUpdate := { excerpt := some "First excerpt text goes here" }

/-- The row `postA` after the excerpt-only update at time 77. -/
def updatedA : Blog :=
  { postA with excerpt := "A completely new excerpt text", updated_at := 77 }

/-- The store after the excerpt-only update of post 1. -/
def dbAB1 : DB := writeRow dbAB 1 updatedA

/-- A store has a row for the id that is soft-deleted. -/
def DeletedAt (db : DB) (id : Nat) : Prop :=
  ∃ b ∈ db.rows, b.id = id ∧ b.is_deleted = true

/-- The two-post store after soft-deleting post 1 at time 42. -/
def dbABdel : DB := writeRow dbAB 1 { postA with is_deleted := true, updated_at := 42 }

/-- A create request that explicitly supplies is_deleted = true. -/
def createDeletedInput : BlogCreate :=
  { title := "Brand New Title!", excerpt := "Quite long enough excerpt",
    content := "c", image_url := "u", is_deleted := true }

/-! ### Query helper lemmas -/

theorem mem_activeRows {db : DB} {b : Blog} :
    b ∈ activeRows db ↔ b ∈ db.rows ∧ b.is_deleted = false := by
  simp [activeRows, List.mem_filter]

theorem findByTitle_eq_none_iff {db : DB} {t : String} :
    findByTitle db t = none ↔ ∀ b ∈ db.rows, b.title ≠ t := by
  simp [findByTitle, List.find?_eq_none]

theorem findByTitle_eq_some {db : DB} {t : String} {b : Blog}
    (h : findByTitle db t = some b) : b ∈ db.rows ∧ b.title = t := by
  refine ⟨List.mem_of_find?_eq_some h, ?_⟩
  have h2 := List.find?_some h
  simpa using h2

theorem findActive_eq_some {db : DB} {id : Nat} {b : Blog}
    (h : findActive db id = some b) :
    b ∈ db.rows ∧ b.id = id ∧ b.is_deleted = false := by
  refine ⟨List.mem_of_find?_eq_some h, ?_⟩
  have h2 := List.find?_some h
  simpa using h2

theorem findActive_eq_none_iff {db : DB} {id : Nat} :
    findActive db id = none ↔ ∀ b ∈ db.rows, b.id = id → b.is_deleted = true := by
  simp [findActive, List.find?_eq_none]

theorem findActiveByTitle_isSome_iff {db : DB} {t : String} :
    (findActiveByTitle db t).isSome ↔
      ∃ c ∈ db.rows, c.is_deleted = false ∧ c.title = t := by
  simp [findActiveByTitle, List.find?_isSome]
  constructor
  · rintro ⟨c, hc, h1, h2⟩; exact ⟨c, hc, h2, h1⟩
  · rintro ⟨c, hc, h1, h2⟩; exact ⟨c, hc, h2, h1⟩

/-- C1: the spec claims the create-time duplicate check looks only at
non-deleted posts.  The source (services/blog.py line 35 and
routes/blog.py line 33) filters on the title alone, so soft-deleted
rows also block creation.  This amended theorem characterises create's
DuplicateTitle failure: it happens exactly when ANY stored row — active
or soft-deleted — carries the requested title. -/
theorem create_duplicate_iff (db : DB) (input : BlogCreate) (now : Nat) :
    BlogService.create_blog db input now = .error .duplicateTitle ↔
      ∃ b ∈ db.rows, b.title = input.title := by
  unfold BlogService.create_blog
  cases h : findByTitle db input.title with
  | none =>
    constructor
    · intro hc; exact absurd hc (by simp)
    · rintro ⟨b, hb, ht⟩
      exact absurd ht (findByTitle_eq_none_iff.mp h b hb)
  | some b =>
    have hb := findByTitle_eq_some h
    exact iff_of_true rfl ⟨b, hb.1, hb.2⟩

/-- C1 counterexample: every row of `dbGhost` is soft-deleted (so no
active post carries the title), yet create fails with DuplicateTitle —
the claim promised this create would succeed. -/
theorem create_soft_deleted_title_conflict :
    (∀ b ∈ dbGhost.rows, b.is_deleted = true) ∧
    BlogService.create_blog dbGhost retryInput 9 = .error .duplicateTitle :=
  ⟨by decide, rfl⟩

/-! ### Pagination helper lemmas -/

/-- Splitting a list into `k` consecutive chunks of size `ps` and
concatenating them gives the list back, provided `k` chunks cover it. -/
theorem flatMap_range_chunks {α : Type} (ps : Nat) :
    ∀ (k : Nat) (l : List α), l.length ≤ k * ps →
      (List.range k).flatMap (fun i => (l.drop (i * ps)).take ps) = l := by
  intro k
  induction k with
  | zero =>
    intro l h
    simp only [Nat.zero_mul, Nat.le_zero] at h
    simp [List.eq_nil_of_length_eq_zero h]
  | succ k ih =>
    intro l h
    rw [List.range_succ_eq_map, List.flatMap_cons, List.flatMap_map]
    simp only [Nat.zero_mul, List.drop_zero]
    have hfun : (fun i => (l.drop (Nat.succ i * ps)).take ps)
        = (fun i => ((l.drop ps).drop (i * ps)).take ps) := by
      funext i
      rw [List.drop_drop]
      have harith : Nat.succ i * ps = ps + i * ps := by
        rw [Nat.succ_mul, Nat.add_comm]
      rw [harith]
    rw [hfun, ih (l.drop ps)
      (by simp only [List.length_drop]; rw [Nat.succ_mul] at h; omega)]
    exact List.take_append_drop ps l

/-- The ceiling page count covers the whole list:
n ≤ ceil(n / ps) * ps for positive ps. -/
theorem le_ceil_mul (n ps : Nat) (h : 0 < ps) : n ≤ ((n + ps - 1) / ps) * ps := by
  have hm := Nat.div_add_mod (n + ps - 1) ps
  have hlt : (n + ps - 1) % ps < ps := Nat.mod_lt _ h
  rw [Nat.mul_comm]
  generalize ps * ((n + ps - 1) / ps) = q at hm ⊢
  generalize (n + ps - 1) % ps = r at hm hlt
  omega

/-- C2 (amended): with offset = (page - 1) * page_size, every page
returns at most page_size records, page `p` is exactly the slice of the
returned ordering `l` starting at its offset, and — provided all pages
are computed from the same ordering `l` of the active posts — the
concatenation of pages 1..ceil(total/page_size) reproduces the full
active-post set with no duplicates or omissions.  The same-ordering
proviso is forced by the counterexample `pagination_unstable_pages`:
each page request issues a fresh ORDER BY created_at DESC query, which
fixes the order only up to created_at ties. -/
theorem list_blog_pagination (db : DB) (l : List Blog) (page_size : Nat)
    (h1 : 1 ≤ page_size) (_h100 : page_size ≤ 100) (hq : isQueryResult db l) :
    (∀ page, (BlogService.list_blog l page page_size).results
        = ((l.drop ((page - 1) * page_size)).take page_size).map listItemFor) ∧
    (∀ page, (BlogService.list_blog l page page_size).results.length ≤ page_size) ∧
    ((List.range ((l.length + page_size - 1) / page_size)).flatMap
        (fun i => (BlogService.list_blog l (i + 1) page_size).results)
      = l.map listItemFor) ∧
    List.Perm (l.map listItemFor) ((activeRows db).map listItemFor) := by
  refine ⟨fun page => rfl, ?_, ?_, hq.1.map listItemFor⟩
  · intro page
    simp only [BlogService.list_blog, List.length_map, List.length_take]
    exact Nat.min_le_left _ _
  · have hres : (fun i => (BlogService.list_blog l (i + 1) page_size).results)
        = (fun i => ((l.drop (i * page_size)).take page_size).map listItemFor) := by
      funext i
      simp [BlogService.list_blog]
    rw [hres, ← List.map_flatMap,
      flatMap_range_chunks page_size ((l.length + page_size - 1) / page_size) l
        (le_ceil_mul l.length page_size h1)]

/-- C2 witness: three posts, page_size 2, pages 1-2 drawn from the one
ordering [postC, postB, postA] concatenate to the whole active set. -/
theorem list_blog_pagination_witness :
    (List.range ((([postC, postB, postA] : List Blog).length + 2 - 1) / 2)).flatMap
        (fun i => (BlogService.list_blog [postC, postB, postA] (i + 1) 2).results)
      = [postC, postB, postA].map listItemFor :=
  (list_blog_pagination dbABC [postC, postB, postA] 2 (by decide) (by decide)
    (by decide)).2.2.1

/-- C2 counterexample: `postA` and `postB` share created_at, so both
orderings are legitimate results of the ORDER BY created_at DESC query.
Drawing page 1 from one ordering and page 2 from the other — which is
what two separate page requests may do — yields `postA` twice and
`postB` never, so the concatenation of pages 1..ceil(2/1) does not
reproduce the active-post set. -/
theorem pagination_unstable_pages :
    isQueryResult dbAB [postA, postB] ∧
    isQueryResult dbAB [postB, postA] ∧
    (BlogService.list_blog [postA, postB] 1 1).results = [listItemFor postA] ∧
    (BlogService.list_blog [postB, postA] 2 1).results = [listItemFor postA] ∧
    listItemFor postB ∉ [listItemFor postA] ++ [listItemFor postA] :=
  ⟨by decide, by decide, rfl, rfl, by decide⟩

/-- Projection of the `next` cursor of the list response. -/
theorem list_blog_next (l : List Blog) (page page_size : Nat) :
    (BlogService.list_blog l page page_size).next
      = if (page - 1) * page_size + page_size < l.length
        then some (pageUrl (page + 1) page_size) else none := rfl

/-- Projection of the `previous` cursor of the list response. -/
theorem list_blog_previous (l : List Blog) (page page_size : Nat) :
    (BlogService.list_blog l page page_size).previous
      = if 1 < page then some (pageUrl (page - 1) page_size) else none := rfl

/-- Projection of the records of the list response. -/
theorem list_blog_results (l : List Blog) (page page_size : Nat) :
    (BlogService.list_blog l page page_size).results
      = ((l.drop ((page - 1) * page_size)).take page_size).map listItemFor := rfl

/-- C4 (amended): the list operation returns active posts ordered by
created_at descending; the query has no secondary sort key, so the
order of posts sharing a created_at value is chosen by the storage
engine and is not guaranteed to follow the id.  Every returned record
is the projection of some active post. -/
theorem list_blog_order (db : DB) (l : List Blog) (page page_size : Nat)
    (hq : isQueryResult db l) :
    List.Pairwise
        (fun a b : BlogListItemResponse => b.created_at ≤ a.created_at)
        (BlogService.list_blog l page page_size).results ∧
    ∀ r ∈ (BlogService.list_blog l page page_size).results,
      ∃ b ∈ db.rows, b.is_deleted = false ∧ r = listItemFor b := by
  rw [list_blog_results]
  have hsub : List.Sublist ((l.drop ((page - 1) * page_size)).take page_size) l :=
    (List.take_sublist _ _).trans (List.drop_sublist _ _)
  constructor
  · rw [List.pairwise_map]
    exact hq.2.sublist hsub
  · intro r hr
    rw [List.mem_map] at hr
    obtain ⟨b, hb, rfl⟩ := hr
    have hbl : b ∈ l := hsub.mem hb
    have hba : b ∈ activeRows db := (hq.1.mem_iff).mp hbl
    exact ⟨b, (mem_activeRows.mp hba).1, (mem_activeRows.mp hba).2, rfl⟩

/-- C4 witness: the ordering [postC, postB, postA] of the three-post
store yields a page sorted by created_at descending, every record the
image of an active post. -/
theorem list_blog_order_witness :
    List.Pairwise
        (fun a b : BlogListItemResponse => b.created_at ≤ a.created_at)
        (BlogService.list_blog [postC, postB, postA] 1 10).results :=
  (list_blog_order dbABC [postC, postB, postA] 1 10 (by decide)).1

/-- C4 counterexample: `postA` (id 1) and `postB` (id 2) share
created_at, so [postB, postA] is a legitimate result of the ORDER BY
created_at DESC query over `dbAB`; the page built from it lists id 2
before id 1, violating the claimed id-ascending tie-break. -/
theorem list_blog_tie_order_counterexample :
    isQueryResult dbAB [postB, postA] ∧
    (BlogService.list_blog [postB, postA] 1 10).results
      = [listItemFor postB, listItemFor postA] ∧
    ¬ List.Pairwise
        (fun a b : BlogListItemResponse =>
          b.created_at < a.created_at ∨
            (a.created_at = b.created_at ∧ a.id < b.id))
        (BlogService.list_blog [postB, postA] 1 10).results :=
  ⟨by decide, rfl, by decide⟩

/-- C3 (amended): `next` is non-null iff offset + page_size < total
active count, `previous` is non-null iff page > 1, and each non-null
cursor is the relative URL /api/v1/blogs?page=n&page_size=s for the
adjacent page with the same page_size.  Only the URL path differs from
the claim, which asserted the shape /blogs?page=n&page_size=s. -/
theorem list_blog_cursors (db : DB) (l : List Blog) (page page_size : Nat)
    (hq : isQueryResult db l) :
    ((BlogService.list_blog l page page_size).next.isSome ↔
        (page - 1) * page_size + page_size < (activeRows db).length) ∧
    ((BlogService.list_blog l page page_size).previous.isSome ↔ 1 < page) ∧
    ((BlogService.list_blog l page page_size).next
        = if (page - 1) * page_size + page_size < (activeRows db).length
          then some (pageUrl (page + 1) page_size) else none) ∧
    ((BlogService.list_blog l page page_size).previous
        = if 1 < page then some (pageUrl (page - 1) page_size) else none) := by
  have hlen : l.length = (activeRows db).length := hq.1.length_eq
  rw [list_blog_next, list_blog_previous, hlen]
  refine ⟨?_, ?_, rfl, rfl⟩
  · split <;> simp_all
  · split <;> simp_all

/-- C3 witness: in the three-post store with page_size 2, page 1 has a
next cursor pointing at page 2 and no previous cursor. -/
theorem list_blog_cursors_witness :
    (BlogService.list_blog [postC, postB, postA] 1 2).next = some (pageUrl 2 2) ∧
    (BlogService.list_blog [postC, postB, postA] 1 2).previous = none := by
  have h := list_blog_cursors dbABC [postC, postB, postA] 1 2 (by decide)
  rw [h.2.2.1, h.2.2.2]
  exact ⟨by decide, by decide⟩

/-- C3 counterexample: the next cursor produced for the three-post
store is the string /api/v1/blogs?page=2&page_size=1, which is not of
the claimed shape /blogs?page=n&page_size=s for any n, s. -/
theorem cursor_url_not_claimed_shape :
    (BlogService.list_blog [postC, postB, postA] 1 1).next
      = some "/api/v1/blogs?page=2&page_size=1" ∧
    ¬ claimedUrlForm "/api/v1/blogs?page=2&page_size=1" := by
  refine ⟨rfl, ?_⟩
  rintro ⟨n, ps, h⟩
  have hpre : ("/blogs?page=").data <+:
      ("/api/v1/blogs?page=2&page_size=1").data := by
    rw [h]
    refine ⟨(Nat.repr n).data ++ ("&page_size=").data ++ (Nat.repr ps).data, ?_⟩
    simp [String.data_append]
  have hno : ¬ ("/blogs?page=").data <+:
      ("/api/v1/blogs?page=2&page_size=1").data := by decide
  exact hno hpre

/-- C9: on equal storage states and validated inputs, each BlogService
static method and the corresponding inline route-handler logic return
the same resulting state and the same result/failure classification.
Create, list, update and delete are syntactically the same computation;
read differs only in how the response is built (model_validate copies
`is_deleted` from the row, the service leaves the schema default false),
and the two coincide because read only ever returns active rows. -/
theorem service_route_equivalent :
    (∀ db input now,
        BlogRoutes.create_blog db input now = BlogService.create_blog db input now) ∧
    (∀ l page page_size,
        BlogRoutes.list_blog l page page_size = BlogService.list_blog l page page_size) ∧
    (∀ db id, BlogRoutes.read_blog db id = BlogService.read_blog db id) ∧
    (∀ db id u now,
        BlogRoutes.update_blog db id u now = BlogService.update_blog db id u now) ∧
    (∀ db id now,
        BlogRoutes.delete_blog db id now = BlogService.delete_blog db id now) := by
  refine ⟨fun db input now => rfl, fun l page page_size => rfl, ?_,
    fun db id u now => rfl, fun db id now => rfl⟩
  intro db id
  unfold BlogRoutes.read_blog BlogService.read_blog
  cases h : findActive db id with
  | none => rfl
  | some b =>
    have hb := findActive_eq_some h
    simp only [BlogRoutes.validatedResponseFor, responseFor, hb.2.2]

/-! ### Update helper lemmas -/

/-- Evaluation of update once the active row has been found. -/
theorem update_blog_found {db : DB} {id : Nat} {u : BlogUpdate} {now : Nat}
    {b : Blog} (hfind : findActive db id = some b) :
    BlogService.update_blog db id u now
      = if titleConflict db b u
        then .error .duplicateTitle
        else .ok
          (writeRow db b.id (BlogService.commitRow b (BlogService.applyUpdate b u) now),
           responseFor (BlogService.commitRow b (BlogService.applyUpdate b u) now)) := by
  unfold BlogService.update_blog
  rw [hfind]

/-- An update success determines the written row and the response: the
found row merged with the supplied fields and committed. -/
theorem update_blog_ok {db : DB} {id : Nat} {u : BlogUpdate} {now : Nat}
    {db' : DB} {r : BlogResponse} {b : Blog}
    (hfind : findActive db id = some b)
    (hok : BlogService.update_blog db id u now = .ok (db', r)) :
    db' = writeRow db b.id (BlogService.commitRow b (BlogService.applyUpdate b u) now) ∧
    r = responseFor (BlogService.commitRow b (BlogService.applyUpdate b u) now) := by
  rw [update_blog_found hfind] at hok
  split at hok
  · exact Except.noConfusion hok
  · simp only [Except.ok.injEq, Prod.mk.injEq] at hok
    exact ⟨hok.1.symm, hok.2.symm⟩

/-- Committing never touches the merged values of the payload columns;
only `updated_at` may change. -/
theorem commitRow_fields (b m : Blog) (now : Nat) :
    (BlogService.commitRow b m now).id = m.id ∧
    (BlogService.commitRow b m now).title = m.title ∧
    (BlogService.commitRow b m now).excerpt = m.excerpt ∧
    (BlogService.commitRow b m now).content = m.content ∧
    (BlogService.commitRow b m now).image_url = m.image_url ∧
    (BlogService.commitRow b m now).is_deleted = m.is_deleted ∧
    (BlogService.commitRow b m now).created_at = m.created_at := by
  unfold BlogService.commitRow
  split <;> simp

/-- C5: when every stored row bearing the id is soft-deleted (which
covers the case of no row at all), read, update and delete each fail
with NotFound, and no list page ever contains a record with that id. -/
theorem deleted_post_invisible (db : DB) (id : Nat)
    (h : ∀ b ∈ db.rows, b.id = id → b.is_deleted = true) :
    BlogService.read_blog db id = .error .notFound ∧
    (∀ u now, BlogService.update_blog db id u now = .error .notFound) ∧
    (∀ now, BlogService.delete_blog db id now = .error .notFound) ∧
    (∀ l page page_size, isQueryResult db l →
      ∀ r ∈ (BlogService.list_blog l page page_size).results, r.id ≠ id) := by
  have hnone : findActive db id = none := findActive_eq_none_iff.mpr h
  refine ⟨?_, fun u now => ?_, fun now => ?_, ?_⟩
  · unfold BlogService.read_blog
    rw [hnone]
  · unfold BlogService.update_blog
    rw [hnone]
  · unfold BlogService.delete_blog
    rw [hnone]
  · intro l page page_size hq r hr
    rw [list_blog_results, List.mem_map] at hr
    obtain ⟨b, hb, rfl⟩ := hr
    have hbl : b ∈ l :=
      (List.Sublist.trans (List.take_sublist _ _) (List.drop_sublist _ _)).mem hb
    have hba := mem_activeRows.mp ((hq.1.mem_iff).mp hbl)
    intro hid
    have hdel := h b hba.1 hid
    rw [hba.2] at hdel
    cases hdel

/-- C5 witness: in the store whose only row (id 1) is soft-deleted,
read on id 1 answers NotFound. -/
theorem deleted_post_invisible_witness :
    BlogService.read_blog dbGhost 1 = .error .notFound :=
  (deleted_post_invisible dbGhost 1 (by decide)).1

/-- C6 (amended): a successful update applies exactly the supplied
fields — each response column equals the supplied value when one was
given and the old row value otherwise — while id and created_at are
untouched; for an excerpt-only update, title, content and image_url are
unchanged and updated_at is refreshed to the commit time exactly when
the supplied excerpt differs from the stored one: supplying the current
value produces no net change, the flush emits no UPDATE, and updated_at
keeps its old value. -/
theorem update_merge_semantics (db : DB) (id : Nat) (u : BlogUpdate) (now : Nat)
    (b : Blog) (db' : DB) (r : BlogResponse)
    (hfind : findActive db id = some b)
    (hok : BlogService.update_blog db id u now = .ok (db', r)) :
    r.id = b.id ∧ r.created_at = b.created_at ∧
    r.title = u.title.getD b.title ∧
    r.excerpt = u.excerpt.getD b.excerpt ∧
    r.content = u.content.getD b.content ∧
    r.image_url = u.image_url.getD b.image_url ∧
    (∀ e, u = { excerpt := some e } → e ≠ b.excerpt →
      r.title = b.title ∧ r.content = b.content ∧ r.image_url = b.image_url ∧
        r.updated_at = now) ∧
    (∀ e, u = { excerpt := some e } → e = b.excerpt →
      r.title = b.title ∧ r.content = b.content ∧ r.image_url = b.image_url ∧
        r.updated_at = b.updated_at) := by
  obtain ⟨hdb, hr⟩ := update_blog_ok hfind hok
  subst hr
  have hc := commitRow_fields b (BlogService.applyUpdate b u) now
  refine ⟨hc.1, hc.2.2.2.2.2.2, hc.2.1, hc.2.2.1, hc.2.2.2.1, hc.2.2.2.2.1,
    ?_, ?_⟩
  · intro e hu hne
    subst hu
    have hneq : BlogService.applyUpdate b { excerpt := some e } ≠ b := by
      intro hcontra
      exact hne (congrArg Blog.excerpt hcontra)
    unfold BlogService.commitRow
    rw [if_neg hneq]
    exact ⟨rfl, rfl, rfl, rfl⟩
  · intro e hu he
    subst hu
    subst he
    have heq : BlogService.applyUpdate b { excerpt := some b.excerpt } = b := rfl
    unfold BlogService.commitRow
    rw [heq, if_pos rfl]
    exact ⟨rfl, rfl, rfl, rfl⟩

/-- C6 witness: updating only the excerpt of post 1 with a new value
keeps its title and refreshes updated_at to the commit time 77. -/
theorem update_merge_semantics_witness :
    (responseFor updatedA).title = postA.title ∧
    (responseFor updatedA).excerpt = "A completely new excerpt text" ∧
    (responseFor updatedA).updated_at = 77 := by
  have h := update_merge_semantics dbAB 1 updExcerpt 77 postA dbAB1
    (responseFor updatedA) rfl rfl
  have h2 := h.2.2.2.2.2.2.1 "A completely new excerpt text" rfl (by decide)
  exact ⟨h2.1, h.2.2.2.1, h2.2.2.2⟩

/-- C6 counterexample: an excerpt-only update of post 1 that supplies
the excerpt it already stores succeeds, but updated_at is NOT refreshed
to the commit time 99 — it keeps its old value 5 — because the merge
changes nothing and no UPDATE is emitted, so the onupdate hook never
fires.  The claim asserted updated_at is refreshed by every
excerpt-only update. -/
theorem update_no_refresh_counterexample :
    BlogService.update_blog dbAB 1 updSameExcerpt 99
      = .ok (writeRow dbAB 1 postA, responseFor postA) ∧
    (responseFor postA).updated_at = postA.updated_at ∧
    postA.updated_at ≠ 99 :=
  ⟨rfl, rfl, by decide⟩

/-- C7: for an update addressed to an active post, DuplicateTitle is
raised exactly when the caller supplied a title that differs from the
current one and some other non-deleted row already holds it; an
unchanged title or an absent title never yields DuplicateTitle, and
neither does a collision with a soft-deleted row only. -/
theorem update_title_uniqueness (db : DB) (id : Nat) (u : BlogUpdate) (now : Nat)
    (b : Blog) (hfind : findActive db id = some b) :
    BlogService.update_blog db id u now = .error .duplicateTitle ↔
      ∃ t, u.title = some t ∧ t ≠ b.title ∧
        ∃ c ∈ db.rows, c.is_deleted = false ∧ c.title = t := by
  rw [update_blog_found hfind]
  by_cases hc : titleConflict db b u = true
  · rw [if_pos hc]
    refine iff_of_true rfl ?_
    unfold titleConflict at hc
    cases ht : u.title with
    | none => rw [ht] at hc; cases hc
    | some t =>
      rw [ht] at hc
      rw [Bool.and_eq_true, bne_iff_ne] at hc
      exact ⟨t, rfl, hc.1, findActiveByTitle_isSome_iff.mp hc.2⟩
  · rw [if_neg hc]
    refine iff_of_false (by simp) ?_
    rintro ⟨t, ht, hne, hex⟩
    apply hc
    unfold titleConflict
    rw [ht, Bool.and_eq_true, bne_iff_ne]
    exact ⟨hne, findActiveByTitle_isSome_iff.mpr hex⟩

/-- C7 witness: renaming post 1 to the title held by the active post 2
fails with DuplicateTitle. -/
theorem update_title_uniqueness_witness :
    BlogService.update_blog dbAB 1 { title := some "Second Post Title" } 9
      = .error .duplicateTitle :=
  (update_title_uniqueness dbAB 1 { title := some "Second Post Title" } 9 postA
      rfl).mpr
    ⟨"Second Post Title", rfl, by decide, postB, by decide, rfl, rfl⟩

/-! ### Evaluation lemmas for create and delete -/

/-- Create fails as soon as any row holds the requested title. -/
theorem create_blog_some {db : DB} {input : BlogCreate} {now : Nat} {b : Blog}
    (hf : findByTitle db input.title = some b) :
    BlogService.create_blog db input now = .error .duplicateTitle := by
  unfold BlogService.create_blog
  rw [hf]

/-- Create inserts the fresh row when no title collision exists. -/
theorem create_blog_none {db : DB} {input : BlogCreate} {now : Nat}
    (hf : findByTitle db input.title = none) :
    BlogService.create_blog db input now
      = .ok ({ rows := db.rows ++ [newBlogRow db input now],
               nextId := db.nextId + 1 },
             responseFor (newBlogRow db input now)) := by
  unfold BlogService.create_blog
  rw [hf]

/-- Update answers NotFound when no active row matches the id. -/
theorem update_blog_notfound {db : DB} {id : Nat} {u : BlogUpdate} {now : Nat}
    (h : findActive db id = none) :
    BlogService.update_blog db id u now = .error .notFound := by
  unfold BlogService.update_blog
  rw [h]

/-- Delete answers NotFound when no active row matches the id. -/
theorem delete_blog_notfound {db : DB} {id : Nat} {now : Nat}
    (h : findActive db id = none) :
    BlogService.delete_blog db id now = .error .notFound := by
  unfold BlogService.delete_blog
  rw [h]

/-- Evaluation of delete once the active row has been found. -/
theorem delete_blog_found {db : DB} {id : Nat} {now : Nat} {b : Blog}
    (hfind : findActive db id = some b) :
    BlogService.delete_blog db id now
      = .ok (writeRow db b.id { b with is_deleted := true, updated_at := now }) := by
  unfold BlogService.delete_blog
  rw [hfind]

/-! ### Well-formedness and the soft-delete invariant -/

/-- Under WF, rows are determined by their primary key. -/
theorem wf_unique_id {db : DB} (hwf : WF db) {x y : Blog}
    (hx : x ∈ db.rows) (hy : y ∈ db.rows) (hxy : x.id = y.id) : x = y :=
  List.inj_on_of_nodup_map hwf.2 hx hy hxy

/-- Writing a row back under its own key leaves the key column of the
table unchanged. -/
theorem writeRow_rows_map_id {db : DB} {tid : Nat} {nb : Blog}
    (h : nb.id = tid) :
    (writeRow db tid nb).rows.map Blog.id = db.rows.map Blog.id := by
  unfold writeRow
  rw [List.map_map]
  apply List.map_congr_left
  intro r _
  simp only [Function.comp_apply]
  by_cases hc : r.id = tid
  · rw [if_pos (by simp [hc]), h, hc]
  · rw [if_neg (by simp [hc])]

/-- Rows with a different key survive a writeRow untouched. -/
theorem mem_writeRow_of_ne {db : DB} {tid : Nat} {nb d : Blog}
    (hd : d ∈ db.rows) (hne : d.id ≠ tid) : d ∈ (writeRow db tid nb).rows := by
  unfold writeRow
  rw [List.mem_map]
  exact ⟨d, hd, by simp [hne]⟩

/-- The written row itself lands in the table when keyed by a stored
row's id. -/
theorem mem_writeRow_self {db : DB} {b nb : Blog} (hb : b ∈ db.rows) :
    nb ∈ (writeRow db b.id nb).rows := by
  unfold writeRow
  rw [List.mem_map]
  exact ⟨b, hb, by simp⟩

/-- writeRow preserves well-formedness when the new row keeps the key of
a stored row. -/
theorem wf_writeRow {db : DB} {tid : Nat} {nb : Blog} (hwf : WF db)
    (hid : nb.id = tid) (hex : ∃ b ∈ db.rows, b.id = tid) :
    WF (writeRow db tid nb) := by
  obtain ⟨b0, hb0, hb0id⟩ := hex
  constructor
  · intro x hx
    unfold writeRow at hx
    rw [List.mem_map] at hx
    obtain ⟨r, hr, rfl⟩ := hx
    by_cases hc : (r.id == tid) = true
    · rw [if_pos hc, hid, ← hb0id]
      exact hwf.1 b0 hb0
    · rw [if_neg hc]
      exact hwf.1 r hr
  · rw [writeRow_rows_map_id hid]
    exact hwf.2

/-- One mutating request preserves well-formedness and keeps a
soft-deleted id soft-deleted: create only appends a fresh id, and
update/delete only touch rows that are currently active, which a
deleted id never is (keys are unique). -/
theorem step_wf_deleted {db db' : DB} {id : Nat}
    (hwf : WF db) (hdel : DeletedAt db id) (hstep : Step db db') :
    WF db' ∧ DeletedAt db' id := by
  obtain ⟨d, hd, hdid, hddel⟩ := hdel
  cases hstep with
  | create input now _ _ r hok =>
    cases hf : findByTitle db input.title with
    | some b =>
      rw [create_blog_some hf] at hok
      exact Except.noConfusion hok
    | none =>
      rw [create_blog_none hf] at hok
      simp only [Except.ok.injEq, Prod.mk.injEq] at hok
      obtain ⟨hdb, _⟩ := hok
      subst hdb
      refine ⟨⟨?_, ?_⟩, ?_⟩
      · intro b hb
        rw [List.mem_append] at hb
        cases hb with
        | inl hb => exact Nat.lt_succ_of_lt (hwf.1 b hb)
        | inr hb =>
          rw [List.mem_singleton] at hb
          subst hb
          exact Nat.lt_succ_self _
      · rw [List.map_append]
        refine List.Nodup.append hwf.2 (List.nodup_singleton _) ?_
        intro x hx hx2
        rw [List.mem_map] at hx
        simp only [List.map_cons, List.map_nil, List.mem_singleton] at hx2
        subst hx2
        obtain ⟨y, hy, hyid⟩ := hx
        have h2 := hwf.1 y hy
        rw [hyid] at h2
        exact Nat.lt_irrefl db.nextId h2
      · exact ⟨d, List.mem_append.mpr (Or.inl hd), hdid, hddel⟩
  | update uid u now _ _ r hok =>
    cases hfa : findActive db uid with
    | none =>
      rw [update_blog_notfound hfa] at hok
      exact Except.noConfusion hok
    | some b =>
      rw [update_blog_found hfa] at hok
      split at hok
      · exact Except.noConfusion hok
      · simp only [Except.ok.injEq, Prod.mk.injEq] at hok
        obtain ⟨hdb, _⟩ := hok
        subst hdb
        have hb := findActive_eq_some hfa
        have hdneq : d.id ≠ b.id := by
          intro he
          have heq := wf_unique_id hwf hd hb.1 he
          rw [heq, hb.2.2] at hddel
          cases hddel
        have hcid : (BlogService.commitRow b (BlogService.applyUpdate b u) now).id
            = b.id := (commitRow_fields b (BlogService.applyUpdate b u) now).1
        exact ⟨wf_writeRow hwf hcid ⟨b, hb.1, rfl⟩,
          d, mem_writeRow_of_ne hd hdneq, hdid, hddel⟩
  | delete did now _ _ hok =>
    cases hfa : findActive db did with
    | none =>
      rw [delete_blog_notfound hfa] at hok
      exact Except.noConfusion hok
    | some b =>
      rw [delete_blog_found hfa] at hok
      injection hok with hdb
      subst hdb
      have hb := findActive_eq_some hfa
      have hdneq : d.id ≠ b.id := by
        intro he
        have heq := wf_unique_id hwf hd hb.1 he
        rw [heq, hb.2.2] at hddel
        cases hddel
      exact ⟨wf_writeRow hwf rfl ⟨b, hb.1, rfl⟩,
        d, mem_writeRow_of_ne hd hdneq, hdid, hddel⟩

/-- The invariant of `step_wf_deleted` carried along any request
sequence. -/
theorem reachable_wf_deleted {db db' : DB} {id : Nat}
    (h : Reachable db db') (hwf : WF db) (hdel : DeletedAt db id) :
    WF db' ∧ DeletedAt db' id := by
  induction h with
  | refl => exact ⟨hwf, hdel⟩
  | tail _ hstep ih => exact step_wf_deleted ih.1 ih.2 hstep

/-- A soft-deleted id resolves to no active row (keys are unique). -/
theorem findActive_none_of_deleted {db : DB} {id : Nat}
    (hwf : WF db) (hdel : DeletedAt db id) : findActive db id = none := by
  rw [findActive_eq_none_iff]
  intro b hb hbid
  obtain ⟨d, hd, hdid, hddel⟩ := hdel
  have heq : b = d := wf_unique_id hwf hb hd (by rw [hbid, hdid])
  rw [heq]
  exact hddel

/-- C8: a successful delete flips is_deleted on the addressed row
without removing it (row count is preserved and a row with that id is
still stored), and Deleted is terminal: in every state reachable by
further create/update/delete requests the row stays soft-deleted, and
read, update and a second delete on that id all answer NotFound — never
a no-op success. -/
theorem delete_terminal (db db1 : DB) (id now : Nat)
    (hwf : WF db) (hdel : BlogService.delete_blog db id now = .ok db1) :
    db1.rows.length = db.rows.length ∧
    (∃ b ∈ db1.rows, b.id = id ∧ b.is_deleted = true) ∧
    (∀ db2, Reachable db1 db2 →
      (∃ b ∈ db2.rows, b.id = id ∧ b.is_deleted = true) ∧
      BlogService.read_blog db2 id = .error .notFound ∧
      (∀ u now2, BlogService.update_blog db2 id u now2 = .error .notFound) ∧
      (∀ now2, BlogService.delete_blog db2 id now2 = .error .notFound)) := by
  cases hfa : findActive db id with
  | none =>
    rw [delete_blog_notfound hfa] at hdel
    exact Except.noConfusion hdel
  | some b =>
    rw [delete_blog_found hfa] at hdel
    injection hdel with hdb
    subst hdb
    have hb := findActive_eq_some hfa
    have hwf1 : WF (writeRow db b.id { b with is_deleted := true, updated_at := now }) :=
      wf_writeRow hwf rfl ⟨b, hb.1, rfl⟩
    have hdel1 : DeletedAt
        (writeRow db b.id { b with is_deleted := true, updated_at := now }) id :=
      ⟨{ b with is_deleted := true, updated_at := now },
        mem_writeRow_self hb.1, hb.2.1, rfl⟩
    refine ⟨by simp [writeRow], hdel1, ?_⟩
    intro db2 hreach
    obtain ⟨hwf2, hdel2⟩ := reachable_wf_deleted hreach hwf1 hdel1
    have hnone := findActive_none_of_deleted hwf2 hdel2
    refine ⟨hdel2, ?_, fun u now2 => update_blog_notfound hnone,
      fun now2 => delete_blog_notfound hnone⟩
    unfold BlogService.read_blog
    rw [hnone]

/-- C8 witness: deleting post 1 of the two-post store keeps both rows,
marks row 1 deleted, and a read of id 1 in the resulting state (reached
by the empty request sequence) answers NotFound. -/
theorem delete_terminal_witness :
    dbABdel.rows.length = dbAB.rows.length ∧
    BlogService.read_blog dbABdel 1 = .error .notFound := by
  have h := delete_terminal dbAB dbABdel 1 42 (by decide) rfl
  exact ⟨h.1, (h.2.2 dbABdel Relation.ReflTransGen.refl).2.1⟩

/-- C10: the `is_deleted` flag accepted by the create schema is never
read: a successful create appends a row built from title, excerpt,
content and image_url only, with is_deleted = false (also false in the
response), and the new post is immediately visible: read on its id
returns it and it belongs to every list-query result over the new
state. -/
theorem create_ignores_is_deleted (db : DB) (input : BlogCreate) (now : Nat)
    (db' : DB) (r : BlogResponse) (hwf : WF db)
    (hok : BlogService.create_blog db input now = .ok (db', r)) :
    db'.rows = db.rows ++ [newBlogRow db input now] ∧
    (newBlogRow db input now).is_deleted = false ∧
    r.is_deleted = false ∧
    BlogService.read_blog db' (newBlogRow db input now).id
      = .ok (responseFor (newBlogRow db input now)) ∧
    (∀ l, isQueryResult db' l → newBlogRow db input now ∈ l) := by
  cases hf : findByTitle db input.title with
  | some b =>
    rw [create_blog_some hf] at hok
    exact Except.noConfusion hok
  | none =>
    rw [create_blog_none hf] at hok
    simp only [Except.ok.injEq, Prod.mk.injEq] at hok
    obtain ⟨hdb, hr⟩ := hok
    subst hdb
    subst hr
    have hfindnew : findActive
        { rows := db.rows ++ [newBlogRow db input now], nextId := db.nextId + 1 }
        (newBlogRow db input now).id = some (newBlogRow db input now) := by
      unfold findActive
      rw [List.find?_append]
      have h1 : db.rows.find?
          (fun b => b.id == (newBlogRow db input now).id && !b.is_deleted) = none := by
        rw [List.find?_eq_none]
        intro x hx
        have hlt := hwf.1 x hx
        simp [newBlogRow, Nat.ne_of_lt hlt]
      rw [h1]
      simp [newBlogRow]
    refine ⟨rfl, rfl, rfl, ?_, ?_⟩
    · unfold BlogService.read_blog
      rw [hfindnew]
    · intro l hq
      refine (hq.1.mem_iff).mpr (mem_activeRows.mpr ⟨?_, rfl⟩)
      exact List.mem_append.mpr (Or.inr (List.mem_singleton.mpr rfl))

/-- C10 witness: creating with is_deleted = true in the request still
stores and reports an active (is_deleted = false) post. -/
theorem create_ignores_is_deleted_witness :
    createDeletedInput.is_deleted = true ∧
    (newBlogRow dbAB createDeletedInput 11).is_deleted = false ∧
    (responseFor (newBlogRow dbAB createDeletedInput 11)).is_deleted = false := by
  have h := create_ignores_is_deleted dbAB createDeletedInput 11
    { rows := dbAB.rows ++ [newBlogRow dbAB createDeletedInput 11],
      nextId := dbAB.nextId + 1 }
    (responseFor (newBlogRow dbAB createDeletedInput 11)) (by decide) rfl
  exact ⟨rfl, h.2.1, h.2.2.1⟩
